import Mathlib

/-!
Verification of the data_access prefetching file cache.

This file shallowly embeds the cache engine's data model and operations:
the URL scheme layer (url_stream.py), the double-buffered cache
(file_cache.py, FileCache) and the rolling-window cache
(queued_file_cache.py, QueuedFileCache).  Pure fragments become Lean
functions; the stateful methods become explicit state passing, with a
raised Python exception modelled by an error value; the concurrent
background loop of QueuedFileCache becomes a step relation on states.
Machine-level concerns (actual bytes on disk, network I/O) are abstracted
behind oracles, but the control flow and the deque arithmetic follow the
Python source line by line.
-/

/-- Python exceptions raised (or, for the error kinds named only by the design
documents, nameable) by the code under study. -/
inductive PyErr where
  | typeError
  | zeroDivisionError
  | indexError
  | assertionError
  | busyError
  | unsupportedOperation
  | fileNotFoundError
  | attributeError
  | schemeNotFound
  | notImplementedError
  | genericException
deriving DecidableEq

namespace UrlStream

/-- str.lower() on a Python string (per character). -/
def pyLower (s : String) : String :=
  String.mk (s.toList.map Char.toLower)

/-- The characters urllib.parse accepts inside a URL scheme. -/
def schemeChars : List Char :=
  "abcdefghijklmnopqrstuvwxyzABCDEFGHIJKLMNOPQRSTUVWXYZ0123456789+-.".toList

/-- urlparse(url).scheme: the lowercased text before the first colon, provided
that text is nonempty and made only of scheme characters; otherwise the empty
string. -/
def urlScheme (url : String) : String :=
  let cs := url.toList
  let head := cs.takeWhile (fun c => c ≠ ':')
  if head.length < cs.length ∧ head ≠ [] ∧ ∀ c ∈ head, c ∈ schemeChars then
    String.mk (head.map Char.toLower)
  else
    ""

/-- The text after the scheme and its colon (the whole URL when there is no
scheme). -/
def urlRest (url : String) : List Char :=
  let cs := url.toList
  if urlScheme url = "" then cs else (cs.dropWhile (fun c => c ≠ ':')).drop 1

/-- urlparse(url).netloc: the text between a leading // and the next slash. -/
def urlNetloc (url : String) : String :=
  let r := urlRest url
  if r.take 2 = ['/', '/'] then String.mk ((r.drop 2).takeWhile (fun c => c ≠ '/'))
  else ""

/-- urlparse(url).path (queries and fragments do not occur in this corpus). -/
def urlPath (url : String) : String :=
  let r := urlRest url
  if r.take 2 = ['/', '/'] then String.mk ((r.drop 2).dropWhile (fun c => c ≠ '/'))
  else String.mk r

/-- get_scheme first normalizes a scheme-less URL to a file URL built from
os.path.abspath; abspath is kept as an oracle parameter. -/
def normalizeUrl (abspath : String → String) (url : String) : String :=
  if urlScheme url = "" then "file:" ++ abspath url else url

/-- The three URLScheme subclasses, in their declaration order in the source:
FileScheme, S3Scheme, GSScheme. -/
inductive SchemeClass where
  | file
  | s3
  | gs
deriving DecidableEq

/-- The class attribute TYPE of each URLScheme subclass. -/
def TYPE : SchemeClass → String
  | .file => "file"
  | .s3 => "s3"
  | .gs => "gs"

/-- URLScheme.Validate: parsed.scheme.lower() == cls.TYPE. -/
def Validate (cls : SchemeClass) (url : String) : Bool :=
  pyLower (urlScheme url) == TYPE cls

/-- The module-level _schemes registry, in declaration order. -/
def schemes : List SchemeClass := [.file, .s3, .gs]

/-- get_scheme: normalize a scheme-less URL to a local file URL, then return
the first registered scheme whose Validate accepts it, paired with the
(normalized) URL it was constructed from.  When no scheme validates, the
source's loop leaves the_scheme = None and returns it: the result is none,
no exception is raised here. -/
def get_scheme (abspath : String → String) (url : String) :
    Option (SchemeClass × String) :=
  let u := normalizeUrl abspath url
  (schemes.find? (fun s => Validate s u)).map (fun s => (s, u))

/-- The handle returned by GetStream, recording which store and mode it is
bound to (the bytes themselves are outside the model). -/
inductive StreamHandle where
  | fileHandle (path permission : String)
  | s3Read (bucket key : String)
  | s3Writer (bucket key : String)
  | gsRead (bucket name : String)
  | gsWriter (bucket name : String)
deriving DecidableEq

/-- GetStream of each scheme class.  FileScheme opens parsed.path directly;
S3Scheme and GSScheme accept only the binary modes rb and wb and raise
TypeError otherwise.  S3's key and GS's blob name are parsed.path with the
leading slash stripped. -/
def GetStream (cls : SchemeClass) (url : String) (permission : String) :
    Except PyErr StreamHandle :=
  match cls with
  | .file => .ok (.fileHandle (urlPath url) permission)
  | .s3 =>
    if permission = "rb" then .ok (.s3Read (urlNetloc url) ((urlPath url).drop 1))
    else if permission = "wb" then .ok (.s3Writer (urlNetloc url) ((urlPath url).drop 1))
    else .error .typeError
  | .gs =>
    if permission = "rb" then .ok (.gsRead (urlNetloc url) ((urlPath url).drop 1))
    else if permission = "wb" then .ok (.gsWriter (urlNetloc url) ((urlPath url).drop 1))
    else .error .typeError

/-- get_stream: get_scheme followed by GetStream on its result.  When
get_scheme returned None, the attribute access None.GetStream raises
AttributeError. -/
def get_stream (abspath : String → String) (url permission : String) :
    Except PyErr StreamHandle :=
  match get_scheme abspath url with
  | none => .error .attributeError
  | some (cls, u) => GetStream cls u permission

/-- GetSize of each scheme class; the physical sizes are an oracle.
GSScheme.GetSize raises NotImplementedError. -/
def GetSize (sizes : SchemeClass → String → Nat) (cls : SchemeClass)
    (url : String) : Except PyErr Nat :=
  match cls with
  | .gs => .error .notImplementedError
  | .file => .ok (sizes .file url)
  | .s3 => .ok (sizes .s3 url)

/-- get_size: get_scheme followed by GetSize; None.GetSize raises
AttributeError. -/
def get_size (abspath : String → String) (sizes : SchemeClass → String → Nat)
    (url : String) : Except PyErr Nat :=
  match get_scheme abspath url with
  | none => .error .attributeError
  | some (cls, u) => GetSize sizes cls u

end UrlStream

namespace FileCache

/-- The mutable state of a FileCache object (file_cache.py). -/
structure FCState where
  cache_dir : String
  currently_caching : Bool
  cache_a : String
  cache_b : String
  current_group : Nat
  current_cache : String
  all_files : List String
  all_sizes : List Nat
  cache_groups : List (List String)
deriving DecidableEq

/-- A Python value that is either an int or a list of ints: the dynamic type of
the accumulator in the constructor's size loop.  total_size starts as the int 0
but the loop body adds the whole list self._all_sizes to it. -/
inductive PyNum where
  | int (n : Nat)
  | list (xs : List Nat)
deriving DecidableEq

/-- Python +=: int + int adds, list + list concatenates, and a mixed addition
of an int and a list raises TypeError. -/
def pyAdd : PyNum → PyNum → Except PyErr PyNum
  | .int a, .int b => .ok (.int (a + b))
  | .list a, .list b => .ok (.list (a ++ b))
  | .int _, .list _ => .error .typeError
  | .list _, .int _ => .error .typeError

/-- The constructor's size loop: for each enumerated file the source executes
total_size += self._all_sizes, adding the whole size list (whose entries at
that moment are the sizes filled in so far; pyAdd raises on the first
iteration regardless of the entries, so the list is passed in its final
form here). -/
def totalSizeLoop (all_sizes : List Nat) : Except PyErr PyNum :=
  all_sizes.foldlM (fun acc _ => pyAdd acc (.list all_sizes)) (PyNum.int 0)

/-- Using the accumulator as a number afterwards (total_size/size) would raise
TypeError when it is a list. -/
def asInt : PyNum → Except PyErr Nat
  | .int n => .ok n
  | .list _ => .error .typeError

/-- int(math.ceil(t/s)) on nonnegative ints; division by zero raises. -/
def pyCeilDiv (t s : Nat) : Except PyErr Nat :=
  if s = 0 then .error .zeroDivisionError else .ok ((t + s - 1) / s)

/-- The inner while of the partition step: append all_files[filename_index] to
the group while this_size + all_sizes[filename_index] < size_per_group.
filename_index is read on every iteration but never advanced (the source's
missing index advance), so it stays 0; with a zero-sized first file and a
positive target the loop never terminates, hence the fuel, whose exhaustion
returns none (divergence). -/
def groupWhile (files : List String) (sizes : List Nat) (spg : ℚ) :
    Nat → Nat → List String → Option (Except PyErr (List String))
  | 0, _, _ => none
  | fuel + 1, this_size, grp =>
    match sizes.get? 0 with
    | none => some (.error .indexError)
    | some s0 =>
      if ((this_size : ℚ) + (s0 : ℚ)) < spg then
        match files.get? 0 with
        | none => some (.error .indexError)
        | some f0 => groupWhile files sizes spg fuel (this_size + s0) (grp ++ [f0])
      else
        some (.ok grp)

/-- The outer for over self._cache_groups.  Because the groups list is built as
a list literal replicated num_groups times, every entry aliases one shared
list; grp is that shared list, extended and shuffled once per group. -/
def groupsLoop (shuffle : List String → List String) (files : List String)
    (sizes : List Nat) (spg : ℚ) (fuel : Nat) :
    Nat → List String → Option (Except PyErr (List String))
  | 0, grp => some (.ok grp)
  | n + 1, grp =>
    match groupWhile files sizes spg fuel 0 grp with
    | none => none
    | some (.error e) => some (.error e)
    | some (.ok grp2) => groupsLoop shuffle files sizes spg fuel n (shuffle grp2)

/-- The index of the next group to cache: (current_group + 1) mod the number of
groups.  Python's % raises ZeroDivisionError when there are no groups. -/
def nextGroup (s : FCState) : Except PyErr Nat :=
  if s.cache_groups.length = 0 then .error .zeroDivisionError
  else .ok ((s.current_group + 1) % s.cache_groups.length)

/-- PrepareNextCache: log the next group index (which evaluates _next_group and
can raise), mark the cache busy and dispatch the asynchronous copy of that
group into the opposite slot directory.  The dispatch itself has no effect on
this state; its completion is _copy_callback. -/
def PrepareNextCache (s : FCState) : FCState × Option PyErr :=
  match nextGroup s with
  | .error e => (s, some e)
  | .ok _ => ({ s with currently_caching := true }, none)

/-- The outcome of running the FileCache constructor. -/
inductive FCInit where
  | ok (s : FCState)
  | raises (e : PyErr)
  | diverges
deriving DecidableEq

/-- The fresh-construction path of FileCache.__init__ (no metadata file):
files pairs each enumerated path with its os.path.getsize result, in
enumeration order; size is the per-group byte target.  Follows the source:
size accumulation, num_groups = ceil(total/size), size_per_group =
total/num_groups, the group-filling walk, then PrepareNextCache. -/
def initFresh (to_dir : String) (shuffle : List String → List String)
    (files : List (String × Nat)) (size : Nat) : FCInit :=
  let all_files := files.map Prod.fst
  let all_sizes := files.map Prod.snd
  match totalSizeLoop all_sizes with
  | .error e => .raises e
  | .ok ts =>
    match asInt ts with
    | .error e => .raises e
    | .ok total =>
      match pyCeilDiv total size with
      | .error e => .raises e
      | .ok num_groups =>
        if num_groups = 0 then
          .raises .zeroDivisionError
        else
          let spg : ℚ := (total : ℚ) / (num_groups : ℚ)
          match groupsLoop shuffle all_files all_sizes spg
              (total + all_files.length + 1) num_groups [] with
          | none => .diverges
          | some (.error e) => .raises e
          | some (.ok grp) =>
            let st : FCState :=
              { cache_dir := to_dir
                currently_caching := false
                cache_a := to_dir ++ "/a"
                cache_b := to_dir ++ "/b"
                current_group := num_groups
                current_cache := to_dir ++ "/a"
                all_files := all_files
                all_sizes := all_sizes
                cache_groups := List.replicate num_groups grp }
            match PrepareNextCache st with
            | (s2, none) => .ok s2
            | (_, some e) => .raises e

/-- SwitchCache: the logging line evaluates _next_group first (and can raise);
then a busy cache raises (the spec's BusyError) with the state untouched;
otherwise the slot toggles, the group index advances and PrepareNextCache
runs. -/
def SwitchCache (s : FCState) : FCState × Option PyErr :=
  match nextGroup s with
  | .error e => (s, some e)
  | .ok ng =>
    if s.currently_caching then
      (s, some .busyError)
    else
      let s1 := { s with
        current_cache := if s.current_cache ≠ s.cache_a then s.cache_a else s.cache_b }
      PrepareNextCache { s1 with currently_caching := true, current_group := ng }

/-- The argument delivered to _copy_callback: the worker's return value True
(or False), or — on the error_callback path — an exception instance. -/
inductive CallbackArg where
  | boolVal (b : Bool)
  | excVal (e : PyErr)
deriving DecidableEq

/-- issubclass(arg, Exception) for the arguments that actually arrive here.
Python's issubclass requires its first argument to be a class; a bool value
and an exception instance are both instances, so the call itself raises
TypeError for either constructor. -/
def issubclassOfException : CallbackArg → Except PyErr Bool
  | .boolVal _ => .error .typeError
  | .excVal _ => .error .typeError

/-- Python truthiness of the callback argument. -/
def truthy : CallbackArg → Bool
  | .boolVal b => b
  | .excVal _ => true

/-- FileCache._copy_callback: branch on issubclass(arg, Exception), re-raising
an exception argument, clearing the busy flag on a truthy success value, and
raising on a falsy one. -/
def copyCallback (s : FCState) (arg : CallbackArg) : FCState × Option PyErr :=
  match issubclassOfException arg with
  | .error e => (s, some e)
  | .ok true =>
    ({ s with currently_caching := false },
      some (match arg with | .excVal e => e | .boolVal _ => .typeError))
  | .ok false =>
    if truthy arg then ({ s with currently_caching := false }, none)
    else (s, some .genericException)

/-- The persisted metadata record of FileCache. -/
structure FCMetadata where
  all_files : List String
  all_sizes : List Nat
  cache_groups : List (List String)
  current_group : Nat
  current_cache : String
  cache_a : String
  cache_b : String
deriving DecidableEq

/-- The record the destructor assembles from the live state. -/
def metadataOf (s : FCState) : FCMetadata :=
  { all_files := s.all_files
    all_sizes := s.all_sizes
    cache_groups := s.cache_groups
    current_group := s.current_group
    current_cache := s.current_cache
    cache_a := s.cache_a
    cache_b := s.cache_b }

/-- A Python file-open mode (only the two binary modes occur). -/
inductive FileMode where
  | rb
  | wb
deriving DecidableEq

/-- open(path, mode) against the current content of the path: opening a missing
file for reading raises FileNotFoundError; otherwise the handle carries its
mode. -/
def pyOpen {α : Type} (mode : FileMode) (content : Option α) :
    Except PyErr FileMode :=
  match mode, content with
  | .rb, none => .error .fileNotFoundError
  | .rb, some _ => .ok .rb
  | .wb, _ => .ok .wb

/-- pickle.dump(m, handle): writes m through the handle, which raises
io.UnsupportedOperation when the handle was opened read-only.  Returns the new
content of the file. -/
def pickleDump (m : FCMetadata) (handle : FileMode) : Except PyErr FCMetadata :=
  match handle with
  | .wb => .ok m
  | .rb => .error .unsupportedOperation

/-- FileCache.__del__: open the metadata path — with mode rb, as the source
does — and pickle.dump the state record into it.  fs is the current content of
to_dir/.cache.pkl; the result is its content afterwards. -/
def delSave (s : FCState) (fs : Option FCMetadata) : Except PyErr FCMetadata := do
  let h ← pyOpen .rb fs
  pickleDump (metadataOf s) h

/-- The metadata branch of FileCache.__init__: rebuild the state from the
loaded record, then PrepareNextCache. -/
def initLoad (to_dir : String) (m : FCMetadata) : FCState × Option PyErr :=
  let s : FCState :=
    { cache_dir := to_dir
      currently_caching := false
      cache_a := m.cache_a
      cache_b := m.cache_b
      current_group := m.current_group
      current_cache := m.current_cache
      all_files := m.all_files
      all_sizes := m.all_sizes
      cache_groups := m.cache_groups }
  PrepareNextCache s

end FileCache

namespace QueuedFileCache

/-- The FStruct file descriptor of queued_file_cache.py: a URL and its size in
bytes. -/
structure FStruct where
  fname : String
  size : Nat
deriving DecidableEq

/-- Total size of a deque of descriptors. -/
def listSize (l : List FStruct) : Nat := (l.map FStruct.size).sum

/-- The size parameters of a QueuedFileCache, after the constructor's
defaulting. -/
structure RWConfig where
  cache_size : Nat
  increment_size : Nat
deriving DecidableEq

/-- self._max_size = cache_size + increment_size. -/
def RWConfig.max_size (c : RWConfig) : Nat := c.cache_size + c.increment_size

/-- _CACHE_BLOCK_SIZE. -/
def BLOCK : Nat := 20

/-- The shared state of a QueuedFileCache: the four deques, the block
snapshot currently handed to the worker pool (at most one copy task is in
flight), and the two flags. -/
structure RWState where
  uncached : List FStruct
  staged : List FStruct
  active : List FStruct
  evicted : List FStruct
  pending : Option (List FStruct)
  stop_signal : Bool
  currently_caching : Bool
deriving DecidableEq

/-- The constructor's initial-fill loop: while the uncached deque is nonempty
and this_size + uncached[0].size < cache_size, copy the head file locally and
move its descriptor from uncached to the current cache.  Returns the active
list and the remaining uncached list. -/
def initLoop (cache_size : Nat) : List FStruct → Nat → List FStruct × List FStruct
  | [], _ => ([], [])
  | f :: rest, this_size =>
    if this_size + f.size < cache_size then
      (f :: (initLoop cache_size rest (this_size + f.size)).1,
        (initLoop cache_size rest (this_size + f.size)).2)
    else
      ([], f :: rest)

/-- The fresh-construction path of QueuedFileCache.__init__ (no metadata):
files is the already shuffled descriptor list (URL paired with its get_size).
Start() then clears stop_signal and sets the caching flag.  The second
component lists the URLs synchronously copied into to_dir by the fill
loop. -/
def initFresh (cfg : RWConfig) (files : List FStruct) : RWState × List String :=
  let fill := initLoop cfg.cache_size files 0
  ({ uncached := fill.2
     staged := []
     active := fill.1
     evicted := []
     pending := none
     stop_signal := false
     currently_caching := true },
    fill.1.map FStruct.fname)

/-- The persisted metadata record of QueuedFileCache: the four deques. -/
structure RWMetadata where
  current_cache : List FStruct
  used_cache : List FStruct
  uncached_files : List FStruct
  next_cache_update : List FStruct
deriving DecidableEq

/-- QueuedFileCache.__init__.  When the metadata file exists its four deques
are loaded verbatim and nothing is fetched; otherwise from_urls is shuffled,
each URL's size queried, and the fresh fill runs.  shuffle and sizes stand for
random.shuffle and the scheme layer's get_size.  The second component lists
the URLs copied during construction. -/
def init (cfg : RWConfig) (from_urls : List String) (sizes : String → Nat)
    (shuffle : List String → List String) (metadata : Option RWMetadata) :
    RWState × List String :=
  match metadata with
  | some m =>
    ({ uncached := m.uncached_files
       staged := m.next_cache_update
       active := m.current_cache
       evicted := m.used_cache
       pending := none
       stop_signal := false
       currently_caching := true }, [])
  | none =>
    initFresh cfg ((shuffle from_urls).map (fun u => { fname := u, size := sizes u }))

/-- The eviction loop of Update: while the active size exceeds cache_size, pop
the head of active (deleting its local file) and push it onto the tail of
used_cache.  Returns the new active and used lists. -/
def evictLoop (cache_size : Nat) : List FStruct → List FStruct → List FStruct × List FStruct
  | [], used => ([], used)
  | f :: rest, used =>
    if cache_size < listSize (f :: rest) then
      evictLoop cache_size rest (used ++ [f])
    else
      (f :: rest, used)

/-- QueuedFileCache.Update: drain the whole staged deque onto the tail of
active, then evict from the head of active until the size bound holds. -/
def Update (cfg : RWConfig) (s : RWState) : RWState :=
  { s with
    active := (evictLoop cfg.cache_size (s.active ++ s.staged) s.evicted).1
    staged := []
    evicted := (evictLoop cfg.cache_size (s.active ++ s.staged) s.evicted).2 }

/-- One atomic step of the system: the background loop
(PrepareNextCacheBlock and _copy_callback), the foreground Update, and the
Stop/Start flags, interleaved.  Block dispatch happens only after the poll
loop has observed listSize(block) + size(active) + size(staged) ≤ max_size;
the rotation feeds evicted back into uncached when uncached has emptied. -/
inductive Step (cfg : RWConfig) : RWState → RWState → Prop where
  | dispatch (s : RWState) (blk : List FStruct)
      (hpend : s.pending = none)
      (hne : s.uncached ≠ [])
      (hblk : blk = s.uncached.take BLOCK)
      (hsize : listSize blk + (listSize s.active + listSize s.staged) ≤ cfg.max_size) :
      Step cfg s { s with pending := some blk }
  | dispatchRotate (s : RWState) (blk : List FStruct)
      (hpend : s.pending = none)
      (hu : s.uncached = [])
      (hne : s.evicted ≠ [])
      (hblk : blk = s.evicted.take BLOCK)
      (hsize : listSize blk + (listSize s.active + listSize s.staged) ≤ cfg.max_size) :
      Step cfg s { s with uncached := s.evicted, evicted := [], pending := some blk }
  | pollStop (s : RWState)
      (hpend : s.pending = none)
      (hstop : s.stop_signal = true) :
      Step cfg s { s with currently_caching := false }
  | pollStopRotate (s : RWState)
      (hpend : s.pending = none)
      (hu : s.uncached = [])
      (hne : s.evicted ≠ [])
      (hstop : s.stop_signal = true) :
      Step cfg s { s with uncached := s.evicted, evicted := [], currently_caching := false }
  | callback (s : RWState) (blk : List FStruct)
      (hpend : s.pending = some blk)
      (hmatch : s.uncached.take blk.length = blk) :
      Step cfg s { s with
        uncached := s.uncached.drop blk.length
        staged := s.staged ++ blk
        pending := none
        currently_caching := if s.stop_signal then false else s.currently_caching }
  | callbackError (s : RWState) (blk : List FStruct)
      (hpend : s.pending = some blk) :
      Step cfg s { s with pending := none, stop_signal := true, currently_caching := false }
  | update (s : RWState) :
      Step cfg s (Update cfg s)
  | stopSig (s : RWState) :
      Step cfg s { s with stop_signal := true }
  | startSig (s : RWState)
      (hpend : s.pending = none) :
      Step cfg s { s with stop_signal := false, currently_caching := true }

/-- The states reachable from a fresh construction over the corpus files by
interleaving the operations above. -/
inductive Reachable (cfg : RWConfig) (files : List FStruct) : RWState → Prop where
  | init : Reachable cfg files (initFresh cfg files).1
  | step (s s2 : RWState) (h : Reachable cfg files s) (hs : Step cfg s s2) :
      Reachable cfg files s2

theorem listSize_nil : listSize [] = 0 := rfl

theorem listSize_cons (f : FStruct) (l : List FStruct) :
    listSize (f :: l) = f.size + listSize l := by
  simp [listSize]

theorem listSize_append (l1 l2 : List FStruct) :
    listSize (l1 ++ l2) = listSize l1 + listSize l2 := by
  simp [listSize]

/-- The fill loop splits its input: the fetched files followed by the rest
are exactly the shuffled corpus, in order. -/
theorem initLoop_append (cs : Nat) (files : List FStruct) (ts : Nat) :
    (initLoop cs files ts).1 ++ (initLoop cs files ts).2 = files := by
  induction files generalizing ts with
  | nil => simp [initLoop]
  | cons f rest ih =>
    by_cases hg : ts + f.size < cs
    · simp only [initLoop, if_pos hg, List.cons_append, ih]
    · simp [initLoop, if_neg hg]

/-- The fill loop's guard is strict: the fetched files total strictly less
than cache_size unless nothing was fetched. -/
theorem initLoop_size (cs : Nat) (files : List FStruct) (ts : Nat) :
    (initLoop cs files ts).1 = [] ∨ ts + listSize (initLoop cs files ts).1 < cs := by
  induction files generalizing ts with
  | nil => left; simp [initLoop]
  | cons f rest ih =>
    by_cases hg : ts + f.size < cs
    · right
      rcases ih (ts + f.size) with h | h
      · simp only [initLoop, if_pos hg, h, listSize_cons, listSize_nil]
        omega
      · simp only [initLoop, if_pos hg, listSize_cons]
        omega
    · left
      simp [initLoop, if_neg hg]

/-- The fill loop is greedy: when it stops with files remaining, fetching the
next head would have reached or passed cache_size. -/
theorem initLoop_stop (cs : Nat) (files : List FStruct) (ts : Nat)
    (f : FStruct) (rest : List FStruct)
    (h : (initLoop cs files ts).2 = f :: rest) :
    cs ≤ ts + listSize (initLoop cs files ts).1 + f.size := by
  induction files generalizing ts with
  | nil => simp [initLoop] at h
  | cons f0 rest0 ih =>
    by_cases hg : ts + f0.size < cs
    · simp only [initLoop, if_pos hg] at h ⊢
      have h3 := ih (ts + f0.size) h
      simp only [listSize_cons]
      omega
    · simp only [initLoop, if_neg hg] at h ⊢
      injection h with h1 h2
      subst h1
      simp only [listSize_nil]
      omega

/-- The eviction loop leaves at most cache_size bytes in active. -/
theorem evictLoop_fst_le_cs (cs : Nat) (a used : List FStruct) :
    listSize (evictLoop cs a used).1 ≤ cs := by
  induction a generalizing used with
  | nil => simp [evictLoop, listSize]
  | cons f rest ih =>
    by_cases hg : cs < listSize (f :: rest)
    · simpa only [evictLoop, if_pos hg] using ih (used ++ [f])
    · simp only [evictLoop, if_neg hg]
      omega

/-- The eviction loop never grows active. -/
theorem evictLoop_fst_le (cs : Nat) (a used : List FStruct) :
    listSize (evictLoop cs a used).1 ≤ listSize a := by
  induction a generalizing used with
  | nil => simp [evictLoop]
  | cons f rest ih =>
    by_cases hg : cs < listSize (f :: rest)
    · have h := ih (used ++ [f])
      simp only [evictLoop, if_pos hg]
      simp only [listSize_cons]
      omega
    · simp [evictLoop, if_neg hg]

/-- The eviction loop removes some initial segment of active, oldest first,
appending it in order to the tail of the used deque. -/
theorem evictLoop_split (cs : Nat) (a used : List FStruct) :
    ∃ k, evictLoop cs a used = (a.drop k, used ++ a.take k) := by
  induction a generalizing used with
  | nil => exact ⟨0, by simp [evictLoop]⟩
  | cons f rest ih =>
    by_cases hg : cs < listSize (f :: rest)
    · obtain ⟨k, hk⟩ := ih (used ++ [f])
      refine ⟨k + 1, ?_⟩
      simp only [evictLoop, if_pos hg, hk, List.drop_succ_cons, List.take_succ_cons]
      simp [List.append_assoc]
    · exact ⟨0, by simp [evictLoop, if_neg hg]⟩

/-- When active is already within bounds the eviction loop does nothing. -/
theorem evictLoop_noop (cs : Nat) (a used : List FStruct) (h : listSize a ≤ cs) :
    evictLoop cs a used = (a, used) := by
  cases a with
  | nil => simp [evictLoop]
  | cons f rest =>
    simp only [evictLoop, if_neg (show ¬ cs < listSize (f :: rest) by omega)]

/-- The eviction loop moves descriptors, preserving their multiset. -/
theorem evictLoop_multiset (cs : Nat) (a used : List FStruct) :
    ((evictLoop cs a used).1 : Multiset FStruct) + ((evictLoop cs a used).2 : Multiset FStruct)
      = (a : Multiset FStruct) + (used : Multiset FStruct) := by
  induction a generalizing used with
  | nil => simp [evictLoop]
  | cons f rest ih =>
    by_cases hg : cs < listSize (f :: rest)
    · simp only [evictLoop, if_pos hg]
      rw [ih (used ++ [f])]
      simp only [← Multiset.coe_add, ← Multiset.cons_coe, Multiset.coe_nil,
        ← Multiset.singleton_add]
      abel
    · simp [evictLoop, if_neg hg]

/-- The budget invariant carried through every interleaving: active plus
staged stays within max_size, and any in-flight block fits on top of it. -/
def SizeInv (cfg : RWConfig) (s : RWState) : Prop :=
  listSize s.active + listSize s.staged ≤ cfg.max_size ∧
  ∀ blk, s.pending = some blk →
    listSize blk + (listSize s.active + listSize s.staged) ≤ cfg.max_size

theorem sizeInv_initFresh (cfg : RWConfig) (files : List FStruct) :
    SizeInv cfg (initFresh cfg files).1 := by
  constructor
  · show listSize (initLoop cfg.cache_size files 0).1 + listSize [] ≤ cfg.max_size
    have h := initLoop_size cfg.cache_size files 0
    simp only [listSize_nil, RWConfig.max_size]
    rcases h with h | h
    · simp [h, listSize_nil]
    · omega
  · intro blk hblk
    exact Option.noConfusion hblk

theorem sizeInv_step (cfg : RWConfig) (s s2 : RWState)
    (h : SizeInv cfg s) (hs : Step cfg s s2) : SizeInv cfg s2 := by
  obtain ⟨h1, h2⟩ := h
  cases hs with
  | dispatch blk hpend hne hblk hsize =>
    refine ⟨h1, fun b hb => ?_⟩
    obtain rfl : blk = b := by simpa using hb
    exact hsize
  | dispatchRotate blk hpend hu hne hblk hsize =>
    refine ⟨h1, fun b hb => ?_⟩
    obtain rfl : blk = b := by simpa using hb
    exact hsize
  | pollStop hpend hstop => exact ⟨h1, h2⟩
  | pollStopRotate hpend hu hne hstop => exact ⟨h1, h2⟩
  | callback blk hpend hmatch =>
    refine ⟨?_, fun b hb => Option.noConfusion hb⟩
    show listSize s.active + listSize (s.staged ++ blk) ≤ cfg.max_size
    have h3 := h2 blk hpend
    rw [listSize_append]
    omega
  | callbackError blk hpend =>
    exact ⟨h1, fun b hb => Option.noConfusion hb⟩
  | update =>
    constructor
    · show listSize (evictLoop cfg.cache_size (s.active ++ s.staged) s.evicted).1
        + listSize [] ≤ cfg.max_size
      have h3 := evictLoop_fst_le_cs cfg.cache_size (s.active ++ s.staged) s.evicted
      simp only [listSize_nil, RWConfig.max_size]
      omega
    · intro b hb
      have h4 := h2 b hb
      have h5 := evictLoop_fst_le cfg.cache_size (s.active ++ s.staged) s.evicted
      have h6 := listSize_append s.active s.staged
      show listSize b + (listSize (evictLoop cfg.cache_size (s.active ++ s.staged) s.evicted).1
        + listSize []) ≤ cfg.max_size
      simp only [listSize_nil]
      omega
  | stopSig => exact ⟨h1, h2⟩
  | startSig hpend => exact ⟨h1, h2⟩

/-- The multiset of descriptors across the four deques. -/
def deques (s : RWState) : Multiset FStruct :=
  (s.uncached : Multiset FStruct) + (s.staged : Multiset FStruct)
    + (s.active : Multiset FStruct) + (s.evicted : Multiset FStruct)

theorem deques_initFresh (cfg : RWConfig) (files : List FStruct) :
    deques (initFresh cfg files).1 = (files : Multiset FStruct) := by
  have h := initLoop_append cfg.cache_size files 0
  show ((initLoop cfg.cache_size files 0).2 : Multiset FStruct)
      + (([] : List FStruct) : Multiset FStruct)
      + ((initLoop cfg.cache_size files 0).1 : Multiset FStruct)
      + (([] : List FStruct) : Multiset FStruct)
      = (files : Multiset FStruct)
  conv_rhs => rw [← h]
  simp only [Multiset.coe_nil, add_zero]
  rw [Multiset.coe_add]
  exact Multiset.coe_eq_coe.mpr List.perm_append_comm

theorem deques_step (cfg : RWConfig) (s s2 : RWState)
    (hs : Step cfg s s2) : deques s2 = deques s := by
  cases hs with
  | dispatch blk hpend hne hblk hsize => rfl
  | dispatchRotate blk hpend hu hne hblk hsize =>
    simp only [deques]
    rw [hu]
    simp only [Multiset.coe_nil, add_zero, zero_add]
    abel
  | pollStop hpend hstop => rfl
  | pollStopRotate hpend hu hne hstop =>
    simp only [deques]
    rw [hu]
    simp only [Multiset.coe_nil, add_zero, zero_add]
    abel
  | callback blk hpend hmatch =>
    simp only [deques]
    conv_rhs => rw [← List.take_append_drop blk.length s.uncached]
    rw [hmatch]
    simp only [← Multiset.coe_add]
    abel
  | callbackError blk hpend => rfl
  | update =>
    simp only [deques, Update]
    have h := evictLoop_multiset cfg.cache_size (s.active ++ s.staged) s.evicted
    simp only [← Multiset.coe_add] at h
    simp only [Multiset.coe_nil, add_zero, zero_add]
    rw [add_assoc, h]
    abel
  | stopSig => rfl
  | startSig hpend => rfl

theorem reachable_sizeInv (cfg : RWConfig) (files : List FStruct) (s : RWState)
    (h : Reachable cfg files s) : SizeInv cfg s := by
  induction h with
  | init => exact sizeInv_initFresh cfg files
  | step s s2 hr hs ih => exact sizeInv_step cfg s s2 ih hs

theorem reachable_deques (cfg : RWConfig) (files : List FStruct) (s : RWState)
    (h : Reachable cfg files s) : deques s = (files : Multiset FStruct) := by
  induction h with
  | init => exact deques_initFresh cfg files
  | step s s2 hr hs ih =>
    rw [deques_step cfg s s2 hs]
    exact ih

end QueuedFileCache

/-- C1: the claim states that DBCache construction partitions the corpus into
groups bounded by max(size, max file size), built by a left-to-right walk.
The code cannot do this: on any nonempty corpus the size accumulation
executes total_size += self._all_sizes, adding the whole size list to an int,
which raises TypeError; on an empty corpus num_groups is 0 and
size_per_group = total_size/num_groups raises ZeroDivisionError.  Fresh
construction therefore always raises and no partition is ever built. -/
theorem dbcache_construction_always_raises :
    (∀ (to_dir : String) (shuffle : List String → List String)
        (p : String) (n : Nat) (files : List (String × Nat)) (size : Nat),
        FileCache.initFresh to_dir shuffle ((p, n) :: files) size
          = FileCache.FCInit.raises PyErr.typeError) ∧
    (∀ (to_dir : String) (shuffle : List String → List String) (size : Nat),
        FileCache.initFresh to_dir shuffle [] size
          = FileCache.FCInit.raises PyErr.zeroDivisionError) := by
  constructor
  · intro to_dir shuffle p n files size
    rfl
  · intro to_dir shuffle size
    have h1 : FileCache.totalSizeLoop [] = Except.ok (FileCache.PyNum.int 0) := rfl
    rcases eq_or_ne size 0 with h | h
    · subst h
      rfl
    · have hd : (size - 1) / size = 0 := Nat.div_eq_of_lt (by omega)
      simp [FileCache.initFresh, h1, FileCache.asInt, FileCache.pyCeilDiv, h, hd]

/-- C7: the claim states the completion callback clears the caching flag on
success.  The code instead calls issubclass(arg, Exception) on the success
value True, which is an instance and not a class, so the callback raises
TypeError before touching the flag: IsCaching() never returns to false. -/
theorem copyCallback_success_raises (s : FileCache.FCState) :
    FileCache.copyCallback s (.boolVal true) = (s, some PyErr.typeError) ∧
    (FileCache.copyCallback s (.boolVal true)).1.currently_caching
      = s.currently_caching :=
  ⟨rfl, rfl⟩

/-- C8: the claim states teardown writes the state blob to to_dir/.cache.pkl
and a later construction reloads it.  The destructor opens that path with
mode rb and then pickle.dumps into the read-only handle, so the save raises
for every state and every prior file content — FileNotFoundError when the
metadata file is absent, io.UnsupportedOperation when present — and the blob
is never written. -/
theorem delSave_never_writes :
    (∀ s : FileCache.FCState,
        FileCache.delSave s none = Except.error PyErr.fileNotFoundError) ∧
    (∀ (s : FileCache.FCState) (m : FileCache.FCMetadata),
        FileCache.delSave s (some m) = Except.error PyErr.unsupportedOperation) :=
  ⟨fun _ => rfl, fun _ _ => rfl⟩

/-- C6: SwitchCache on a busy cache raises the busy error with the state
returned unchanged; on an idle cache it toggles the slot between a and b,
advances the group index modulo the number of groups, and leaves the cache
busy preparing the next group. -/
theorem switchCache_spec (s : FileCache.FCState) (hg : s.cache_groups ≠ []) :
    (s.currently_caching = true →
      FileCache.SwitchCache s = (s, some PyErr.busyError)) ∧
    (s.currently_caching = false →
      (FileCache.SwitchCache s).2 = none ∧
      (FileCache.SwitchCache s).1.current_cache
        = (if s.current_cache ≠ s.cache_a then s.cache_a else s.cache_b) ∧
      (FileCache.SwitchCache s).1.current_group
        = (s.current_group + 1) % s.cache_groups.length ∧
      (FileCache.SwitchCache s).1.currently_caching = true) := by
  have hlen : ¬ s.cache_groups.length = 0 := by simpa using hg
  constructor
  · intro hc
    simp [FileCache.SwitchCache, FileCache.nextGroup, hlen, hc]
  · intro hc
    simp [FileCache.SwitchCache, FileCache.nextGroup, FileCache.PrepareNextCache,
      hlen, hc]

/-- A concrete busy FileCache state for the C6 witness. -/
def fcBusy : FileCache.FCState :=
  { cache_dir := "d"
    currently_caching := true
    cache_a := "d/a"
    cache_b := "d/b"
    current_group := 0
    current_cache := "d/a"
    all_files := ["f"]
    all_sizes := [1]
    cache_groups := [["f"]] }

/-- Witness for switchCache_spec: at the concrete busy state with one group,
SwitchCache raises the busy error and returns the state unchanged. -/
theorem switchCache_spec_witness :
    FileCache.SwitchCache fcBusy = (fcBusy, some PyErr.busyError) :=
  (switchCache_spec fcBusy (List.cons_ne_nil _ _)).1 rfl

/-- C3: Update drains staged onto the tail of active, then evicts from the
head of active (oldest first, appended in order to the tail of evicted)
until the active size is within cache_size; if the merged deque already
fits, nothing is evicted. -/
theorem update_spec (cfg : QueuedFileCache.RWConfig) (s : QueuedFileCache.RWState) :
    QueuedFileCache.listSize (QueuedFileCache.Update cfg s).active ≤ cfg.cache_size ∧
    (QueuedFileCache.Update cfg s).staged = [] ∧
    (∃ k, (QueuedFileCache.Update cfg s).active = (s.active ++ s.staged).drop k ∧
      (QueuedFileCache.Update cfg s).evicted
        = s.evicted ++ (s.active ++ s.staged).take k) ∧
    (QueuedFileCache.listSize (s.active ++ s.staged) ≤ cfg.cache_size →
      (QueuedFileCache.Update cfg s).active = s.active ++ s.staged ∧
      (QueuedFileCache.Update cfg s).evicted = s.evicted) := by
  refine ⟨QueuedFileCache.evictLoop_fst_le_cs _ _ _, rfl, ?_, ?_⟩
  · obtain ⟨k, hk⟩ :=
      QueuedFileCache.evictLoop_split cfg.cache_size (s.active ++ s.staged) s.evicted
    refine ⟨k, ?_, ?_⟩
    · show (QueuedFileCache.evictLoop cfg.cache_size (s.active ++ s.staged) s.evicted).1 = _
      rw [hk]
    · show (QueuedFileCache.evictLoop cfg.cache_size (s.active ++ s.staged) s.evicted).2 = _
      rw [hk]
  · intro h
    have h2 :=
      QueuedFileCache.evictLoop_noop cfg.cache_size (s.active ++ s.staged) s.evicted h
    constructor
    · show (QueuedFileCache.evictLoop cfg.cache_size (s.active ++ s.staged) s.evicted).1 = _
      rw [h2]
    · show (QueuedFileCache.evictLoop cfg.cache_size (s.active ++ s.staged) s.evicted).2 = _
      rw [h2]

/-- Witness for update_spec at a concrete state that fits within the bound:
active keeps the merged deque and nothing is evicted. -/
theorem update_spec_witness :
    QueuedFileCache.listSize
        (QueuedFileCache.Update ⟨10, 5⟩
          { uncached := []
            staged := [⟨"b", 2⟩]
            active := [⟨"a", 3⟩]
            evicted := []
            pending := none
            stop_signal := false
            currently_caching := false }).active ≤ 10 ∧
    (QueuedFileCache.Update ⟨10, 5⟩
          { uncached := []
            staged := [⟨"b", 2⟩]
            active := [⟨"a", 3⟩]
            evicted := []
            pending := none
            stop_signal := false
            currently_caching := false }).active = [⟨"a", 3⟩, ⟨"b", 2⟩] := by
  refine ⟨(update_spec ⟨10, 5⟩ _).1, ?_⟩
  have h := ((update_spec ⟨10, 5⟩
    { uncached := []
      staged := [⟨"b", 2⟩]
      active := [⟨"a", 3⟩]
      evicted := []
      pending := none
      stop_signal := false
      currently_caching := false }).2.2.2 (by decide)).1
  simpa using h

/-- C4: in every state reachable by interleaving construction, the background
block loop, the copy-completion callback and Update, the resident bytes
(active plus staged) stay within max_size = cache_size + increment_size, and
any block the poll loop has accepted for dispatch also fits within that
bound, so its completion cannot break it. -/
theorem reachable_budget (cfg : QueuedFileCache.RWConfig)
    (files : List QueuedFileCache.FStruct) (s : QueuedFileCache.RWState)
    (h : QueuedFileCache.Reachable cfg files s) :
    QueuedFileCache.listSize s.active + QueuedFileCache.listSize s.staged
        ≤ cfg.max_size ∧
    ∀ blk, s.pending = some blk →
      QueuedFileCache.listSize blk
          + (QueuedFileCache.listSize s.active + QueuedFileCache.listSize s.staged)
        ≤ cfg.max_size :=
  QueuedFileCache.reachable_sizeInv cfg files s h

/-- Witness for reachable_budget at the freshly constructed state over a
concrete two-file corpus. -/
theorem reachable_budget_witness :
    QueuedFileCache.listSize
        (QueuedFileCache.initFresh ⟨50, 10⟩ [⟨"u1", 30⟩, ⟨"u2", 40⟩]).1.active
      + QueuedFileCache.listSize
        (QueuedFileCache.initFresh ⟨50, 10⟩ [⟨"u1", 30⟩, ⟨"u2", 40⟩]).1.staged
      ≤ 60 :=
  (reachable_budget ⟨50, 10⟩ [⟨"u1", 30⟩, ⟨"u2", 40⟩]
    (QueuedFileCache.initFresh ⟨50, 10⟩ [⟨"u1", 30⟩, ⟨"u2", 40⟩]).1
    QueuedFileCache.Reachable.init).1

/-- C5: every reachable state carries the whole initial corpus: the multiset
union of the four deques uncached, staged, active and evicted equals the file
list the cache was constructed over; no operation duplicates or drops a
descriptor. -/
theorem reachable_partition (cfg : QueuedFileCache.RWConfig)
    (files : List QueuedFileCache.FStruct) (s : QueuedFileCache.RWState)
    (h : QueuedFileCache.Reachable cfg files s) :
    (s.uncached : Multiset QueuedFileCache.FStruct) + (s.staged : Multiset QueuedFileCache.FStruct)
        + (s.active : Multiset QueuedFileCache.FStruct)
        + (s.evicted : Multiset QueuedFileCache.FStruct)
      = (files : Multiset QueuedFileCache.FStruct) :=
  QueuedFileCache.reachable_deques cfg files s h

/-- Witness for reachable_partition after one Update step from the freshly
constructed state over a concrete one-file corpus. -/
theorem reachable_partition_witness :
    ((QueuedFileCache.Update ⟨50, 10⟩
          (QueuedFileCache.initFresh ⟨50, 10⟩ [⟨"x", 5⟩]).1).uncached
        : Multiset QueuedFileCache.FStruct)
      + ↑(QueuedFileCache.Update ⟨50, 10⟩
          (QueuedFileCache.initFresh ⟨50, 10⟩ [⟨"x", 5⟩]).1).staged
      + ↑(QueuedFileCache.Update ⟨50, 10⟩
          (QueuedFileCache.initFresh ⟨50, 10⟩ [⟨"x", 5⟩]).1).active
      + ↑(QueuedFileCache.Update ⟨50, 10⟩
          (QueuedFileCache.initFresh ⟨50, 10⟩ [⟨"x", 5⟩]).1).evicted
      = (([⟨"x", 5⟩] : List QueuedFileCache.FStruct) : Multiset QueuedFileCache.FStruct) :=
  reachable_partition ⟨50, 10⟩ [⟨"x", 5⟩] _
    (QueuedFileCache.Reachable.step _ _ QueuedFileCache.Reachable.init
      (QueuedFileCache.Step.update _))

/-- One mebibyte, for the literal RWCache scenario. -/
def mib : Nat := 1024 * 1024

/-- The literal scenario corpus: 100 distinct URLs of 10 MiB each, in the
order produced by the constructor's shuffle. -/
def urls100 : List QueuedFileCache.FStruct :=
  (List.range 100).map (fun i => ⟨"s3://bucket/f" ++ toString i, 10 * mib⟩)

/-- The literal scenario configuration: cache_size and increment_size both
50 MiB. -/
def cfg5050 : QueuedFileCache.RWConfig := ⟨50 * mib, 50 * mib⟩

/-- C2 counterexample: the claim promises exactly 5 resident files (50 MB)
after fresh construction over 100 files of 10 MB with cache_size 50 MB, but
the fill loop's guard is strict (this_size + next < cache_size), so it stops
at 4 files. -/
theorem initFresh_not_five_files :
    (QueuedFileCache.initFresh cfg5050 urls100).1.active.length ≠ 5 := by
  decide

/-- C2 amended: fresh construction fetches files from the head of the
shuffled corpus into active while the running total plus the next size stays
strictly below cache_size — it stops as soon as adding the next file would
reach or exceed cache_size — and the synchronously copied URLs are exactly
the active ones; for 100 files of 10 MiB and cache_size 50 MiB this leaves 4
files (40 MiB) resident, not 5. -/
theorem initFresh_greedy_spec :
    (∀ (cfg : QueuedFileCache.RWConfig) (files : List QueuedFileCache.FStruct),
      (QueuedFileCache.initFresh cfg files).1.active
          ++ (QueuedFileCache.initFresh cfg files).1.uncached = files ∧
      QueuedFileCache.listSize (QueuedFileCache.initFresh cfg files).1.active
          ≤ cfg.cache_size ∧
      (QueuedFileCache.initFresh cfg files).2
          = ((QueuedFileCache.initFresh cfg files).1.active).map QueuedFileCache.FStruct.fname ∧
      ∀ f rest, (QueuedFileCache.initFresh cfg files).1.uncached = f :: rest →
        cfg.cache_size ≤
          QueuedFileCache.listSize (QueuedFileCache.initFresh cfg files).1.active + f.size) ∧
    (QueuedFileCache.initFresh cfg5050 urls100).1.active.length = 4 ∧
    QueuedFileCache.listSize (QueuedFileCache.initFresh cfg5050 urls100).1.active
      = 40 * mib := by
  refine ⟨fun cfg files => ⟨?_, ?_, rfl, ?_⟩, by decide, by decide⟩
  · exact QueuedFileCache.initLoop_append cfg.cache_size files 0
  · rcases QueuedFileCache.initLoop_size cfg.cache_size files 0 with h | h
    · show QueuedFileCache.listSize (QueuedFileCache.initLoop cfg.cache_size files 0).1 ≤ _
      rw [h]
      simp [QueuedFileCache.listSize]
    · show QueuedFileCache.listSize (QueuedFileCache.initLoop cfg.cache_size files 0).1 ≤ _
      omega
  · intro f rest hrest
    have h := QueuedFileCache.initLoop_stop cfg.cache_size files 0 f rest hrest
    show cfg.cache_size
        ≤ QueuedFileCache.listSize (QueuedFileCache.initLoop cfg.cache_size files 0).1 + f.size
    omega

/-- Witness for initFresh_greedy_spec: with files of 30 and 40 bytes and
cache_size 50, only the first is fetched and fetching the next would reach
the bound. -/
theorem initFresh_greedy_spec_witness :
    (50 : Nat) ≤ QueuedFileCache.listSize
        (QueuedFileCache.initFresh ⟨50, 0⟩ [⟨"a", 30⟩, ⟨"b", 40⟩]).1.active + 40 :=
  (initFresh_greedy_spec.1 ⟨50, 0⟩ [⟨"a", 30⟩, ⟨"b", 40⟩]).2.2.2 ⟨"b", 40⟩ [] (by decide)

/-- A concrete os.path.abspath oracle for the scheme-layer claims. -/
def absOracle : String → String := fun p => "/cwd/" ++ p

/-- C9 counterexample: for the unregistered scheme http the factory returns
None — it does not raise any error, let alone SchemeNotFound — and
get_stream then fails with the AttributeError of calling GetStream on None,
which is a different error kind than SchemeNotFound. -/
theorem get_scheme_unknown_returns_none :
    UrlStream.get_scheme absOracle "http://example.com/a" = none ∧
    UrlStream.get_stream absOracle "http://example.com/a" "rb"
      = Except.error PyErr.attributeError ∧
    PyErr.attributeError ≠ PyErr.schemeNotFound := by
  refine ⟨by decide, rfl, by decide⟩

/-- C9 amended: the factory returns the first scheme in declaration order
(file, s3, gs) whose Validate accepts the normalized URL, and returns None —
without raising — when none does; the stream and size helpers then fail with
AttributeError (the None dereference), not with a SchemeNotFound error. -/
theorem get_scheme_spec (abspath : String → String)
    (sizes : UrlStream.SchemeClass → String → Nat) (url : String) :
    (UrlStream.get_scheme abspath url =
      (if UrlStream.Validate .file (UrlStream.normalizeUrl abspath url)
        then some (.file, UrlStream.normalizeUrl abspath url)
        else if UrlStream.Validate .s3 (UrlStream.normalizeUrl abspath url)
          then some (.s3, UrlStream.normalizeUrl abspath url)
          else if UrlStream.Validate .gs (UrlStream.normalizeUrl abspath url)
            then some (.gs, UrlStream.normalizeUrl abspath url)
            else none)) ∧
    (UrlStream.get_scheme abspath url = none ↔
      (UrlStream.Validate .file (UrlStream.normalizeUrl abspath url) = false ∧
        UrlStream.Validate .s3 (UrlStream.normalizeUrl abspath url) = false ∧
        UrlStream.Validate .gs (UrlStream.normalizeUrl abspath url) = false)) ∧
    (UrlStream.get_scheme abspath url = none →
      UrlStream.get_stream abspath url "rb" = Except.error PyErr.attributeError ∧
      UrlStream.get_size abspath sizes url = Except.error PyErr.attributeError) := by
  refine ⟨?_, ?_, ?_⟩
  · cases h1 : UrlStream.Validate .file (UrlStream.normalizeUrl abspath url) <;>
      cases h2 : UrlStream.Validate .s3 (UrlStream.normalizeUrl abspath url) <;>
        cases h3 : UrlStream.Validate .gs (UrlStream.normalizeUrl abspath url) <;>
          simp [UrlStream.get_scheme, UrlStream.schemes, List.find?, h1, h2, h3]
  · cases h1 : UrlStream.Validate .file (UrlStream.normalizeUrl abspath url) <;>
      cases h2 : UrlStream.Validate .s3 (UrlStream.normalizeUrl abspath url) <;>
        cases h3 : UrlStream.Validate .gs (UrlStream.normalizeUrl abspath url) <;>
          simp [UrlStream.get_scheme, UrlStream.schemes, List.find?, h1, h2, h3]
  · intro h
    exact ⟨by simp [UrlStream.get_stream, h], by simp [UrlStream.get_size, h]⟩

/-- Witness for get_scheme_spec at a concrete unregistered URL: the helper
fails with AttributeError. -/
theorem get_scheme_spec_witness :
    UrlStream.get_stream absOracle "http://example.com/b" "rb"
      = Except.error PyErr.attributeError :=
  ((get_scheme_spec absOracle (fun _ _ => 0) "http://example.com/b").2.2 (by decide)).1

/-- C10: when the metadata file exists, construction reads all four deques
from it and fetches nothing; the from_urls argument, the size oracle and the
shuffle are ignored completely, so two constructions over the same metadata
but different corpora yield identical states and copy no URL at all. -/
theorem init_metadata_ignores_urls
    (cfg : QueuedFileCache.RWConfig) (m : QueuedFileCache.RWMetadata)
    (u1 u2 : List String) (sz1 sz2 : String → Nat)
    (sh1 sh2 : List String → List String) :
    QueuedFileCache.init cfg u1 sz1 sh1 (some m)
        = QueuedFileCache.init cfg u2 sz2 sh2 (some m) ∧
    (QueuedFileCache.init cfg u1 sz1 sh1 (some m)).2 = [] :=
  ⟨rfl, rfl⟩
